import Mathlib

/-!
Shallow embedding of the Leveraged Rotation Strategy backtest engine
(`Backtest/backtest_engine.py`) and proofs about it.

Modelling conventions:
* Prices and returns are rationals (`ℚ`).  A pandas `NaN` cell is `none` in
  `Option ℚ`.  `fillna(0)` becomes `Option.getD · 0`.
* Trading dates are absolute day ordinals (`Int`); each price row also
  carries its calendar year, used by the era-splice string slices such as
  `.loc["1927":"1970"]`.  The slice `.loc["2010-01-01":]` selects exactly the
  rows whose calendar year is `≥ 2010`.
* Division by zero in `ℚ` yields `0`, whereas a zero price makes pandas
  `pct_change` produce `±inf`.  The engine's own data never contains zero
  prices (prices are positive and forward/backward filled), and no theorem
  below inspects a value produced by dividing by a zero price.
* A pandas `Series` is a list of values together with the (shared) list of
  index dates; label slicing `.loc[d:]` on the strictly increasing date
  index is positional `List.drop`.
-/

namespace BacktestEngine

/-- pandas `Series.pct_change(fill_method=None)`: entry `i` is
`p[i]/p[i-1] - 1`, `NaN` (= `none`) at index 0 or when either operand is
missing. -/
def pctChange (l : List (Option ℚ)) : List (Option ℚ) :=
  (List.range l.length).map fun i =>
    if i = 0 then none else
      match l.getD (i - 1) none, l.getD i none with
      | some a, some b => some (b / a - 1)
      | _, _ => none

/-- Running product accumulator for `Series.cumprod()`. -/
def cumprodAux (acc : ℚ) : List ℚ → List ℚ
  | [] => []
  | x :: xs => (acc * x) :: cumprodAux (acc * x) xs

/-- pandas `Series.cumprod()`. -/
def cumprod (l : List ℚ) : List ℚ := cumprodAux 1 l

/-- Maximum of a list (0 for the empty list; only applied to non-empty
prefixes below). -/
def listMax : List ℚ → ℚ
  | [] => 0
  | x :: xs => xs.foldl max x

/-- Minimum of a list (0 for the empty list). -/
def listMin : List ℚ → ℚ
  | [] => 0
  | x :: xs => xs.foldl min x

/-- pandas `Series.cummax()`: entry `i` is the maximum of the first `i+1`
values. -/
def cummax (l : List ℚ) : List ℚ :=
  (List.range l.length).map fun i => listMax (l.take (i + 1))

/-- pandas `Series.rolling(w).mean()` (default `min_periods = w`): trailing
mean over the window, `NaN` while the window is not yet full. -/
def rollingMean (w : Nat) (vs : List ℚ) : List (Option ℚ) :=
  (List.range vs.length).map fun i =>
    if i + 1 < w then none
    else some (((vs.take (i + 1)).drop (i + 1 - w)).sum / w)

/-- pandas `Series.shift(1)`: every value moves one slot later, a `NaN`
enters at the front, the last value falls off. -/
def shiftOne (xs : List (Option ℚ)) : List (Option ℚ) :=
  match xs with
  | [] => []
  | _ => none :: xs.dropLast

/-- pandas `>` between two possibly-`NaN` values: any comparison with `NaN`
is `False`. -/
def optGt (a b : Option ℚ) : Bool :=
  match a, b with
  | some x, some y => decide (y < x)
  | _, _ => false

/-- First index whose date is `≥ us` (the pandas
`index[index >= user_start][0]` lookup). -/
def firstIdxGe (us : Int) : List Int → Option Nat
  | [] => none
  | d :: ds => if us ≤ d then some 0 else (firstIdxGe us ds).map (· + 1)

/-- First index holding a non-`NaN` value (pandas
`Series.first_valid_index()`, positionally). -/
def firstSomeIdx : List (Option ℚ) → Option Nat
  | [] => none
  | x :: xs => if x.isSome then some 0 else (firstSomeIdx xs).map (· + 1)

/-- First index holding exactly the value `v`. -/
def firstIdxEqQ (v : ℚ) : List ℚ → Option Nat
  | [] => none
  | x :: xs => if x = v then some 0 else (firstIdxEqQ v xs).map (· + 1)

/-- First index whose value is `≥ b` (the boolean filter
`series[series >= b]` followed by taking the first surviving position). -/
def firstIdxGeQ (b : ℚ) : List ℚ → Option Nat
  | [] => none
  | x :: xs => if b ≤ x then some 0 else (firstIdxGeQ b xs).map (· + 1)

/-- pandas `Series.idxmin()` as a position: first index achieving the
minimum value. -/
def idxOfMin (l : List ℚ) : Nat := (firstIdxEqQ (listMin l) l).getD 0

/-- Forward fill, carrying the last seen value. -/
def ffillAux : Option ℚ → List (Option ℚ) → List (Option ℚ)
  | _, [] => []
  | last, x :: xs =>
    match x with
    | some v => some v :: ffillAux (some v) xs
    | none => last :: ffillAux last xs

/-- pandas `Series.ffill()`. -/
def ffillCol (l : List (Option ℚ)) : List (Option ℚ) := ffillAux none l

/-- pandas `Series.bfill()`. -/
def bfillCol (l : List (Option ℚ)) : List (Option ℚ) :=
  (ffillAux none l.reverse).reverse

/-- One row of the downloaded close-price table: a trading date (absolute
day ordinal), its calendar year, and the adjusted close of each ticker in
`TICKERS = ["^GSPC", "^IXIC", "^NDX", "QQQ", "TQQQ", "IAU", "GC=F"]`. -/
structure Row where
  date : Int
  year : Int
  gspc : Option ℚ
  ixic : Option ℚ
  ndx : Option ℚ
  qqq : Option ℚ
  tqqq : Option ℚ
  iau : Option ℚ
  gcf : Option ℚ
deriving DecidableEq, Inhabited, Repr

/-- The `close` DataFrame: rows in (strictly increasing) date order. -/
abbrev PriceTable := List Row

/-- `raw["Close"].ffill().bfill()` applied in `download_data`: forward then
backward fill, column by column. -/
def cleanTable (t : PriceTable) : PriceTable :=
  let g := bfillCol (ffillCol (t.map (·.gspc)))
  let ix := bfillCol (ffillCol (t.map (·.ixic)))
  let nd := bfillCol (ffillCol (t.map (·.ndx)))
  let qq := bfillCol (ffillCol (t.map (·.qqq)))
  let tq := bfillCol (ffillCol (t.map (·.tqqq)))
  let ia := bfillCol (ffillCol (t.map (·.iau)))
  let gc := bfillCol (ffillCol (t.map (·.gcf)))
  (List.range t.length).map fun i =>
    { date := (t.getD i default).date
      year := (t.getD i default).year
      gspc := g.getD i none
      ixic := ix.getD i none
      ndx := nd.getD i none
      qqq := qq.getD i none
      tqqq := tq.getD i none
      iau := ia.getD i none
      gcf := gc.getD i none }

/-- The era pick of `build_stock_returns`: the per-year string slices
`r_series.loc["1927":"1970"] = r_sp.loc[...]` and so on.  Dates outside all
era ranges stay `NaN`. -/
def eraPick (y : Int) (sp ix nd qq : Option ℚ) : Option ℚ :=
  if 1927 ≤ y ∧ y ≤ 1970 then sp
  else if 1971 ≤ y ∧ y ≤ 1985 then ix
  else if 1986 ≤ y ∧ y ≤ 1999 then nd
  else if 2000 ≤ y ∧ y ≤ 2009 then qq
  else if 2010 ≤ y then qq
  else none

/-- The stitched unleveraged return series `r_series` of
`build_stock_returns`, before `fillna(0)`: row `i` takes the percent
change of the proxy instrument of its row's era. -/
def stitchedOpt (close : PriceTable) : List (Option ℚ) :=
  (List.range close.length).map fun i =>
    eraPick (close.getD i default).year
      ((pctChange (close.map (·.gspc))).getD i none)
      ((pctChange (close.map (·.ixic))).getD i none)
      ((pctChange (close.map (·.ndx))).getD i none)
      ((pctChange (close.map (·.qqq))).getD i none)

/-- `r_series` after `replace([inf,-inf], nan).fillna(0)`. -/
def stitchedReturns (close : PriceTable) : List ℚ :=
  (stitchedOpt close).map (·.getD 0)

/-- `nav /= nav.iloc[0]`: rebase a NAV series by its first value. -/
def rebase (l : List ℚ) : List ℚ := l.map (· / l.headI)

/-- The leveraged return series `r_stock_3x`: `r_series * leverage`,
overwritten from 2010-01-01 (equivalently: on the rows with calendar year
`≥ 2010`) by `r_tqqq.fillna(0)`. -/
def leveragedReturns (close : PriceTable) (lev : ℚ) : List ℚ :=
  (List.range close.length).map fun i =>
    if 2010 ≤ (close.getD i default).year then
      ((pctChange (close.map (·.tqqq))).getD i none).getD 0
    else (stitchedReturns close).getD i 0 * lev

/-- `build_stock_returns(close, leverage)`: the stitched synthetic stock
returns and NAVs.  Returns
`(r_stock_3x, stock_nav, stock_nav_1x)`. -/
def build_stock_returns (close : PriceTable) (lev : ℚ) :
    List ℚ × List ℚ × List ℚ :=
  let rSeries := stitchedReturns close
  let stockNav1x := rebase (cumprod (rSeries.map (1 + ·)))
  let r3x := leveragedReturns close lev
  let stockNav := rebase (cumprod (r3x.map (1 + ·)))
  (r3x, stockNav, stockNav1x)

/-- `build_gold_returns(close)`: futures returns strictly before the gold
ETF's first valid index, the ETF's own returns from there on
(`r_gold.loc[:iau_start]` then `r_gold.loc[iau_start:]`, the second
assignment overwriting the splice date), then `fillna(0)`.  If IAU has no
valid value, `first_valid_index()` is `None` and both label slices are the
full series, so the second assignment leaves the all-`NaN` IAU returns.
Returns `(r_gold, gold_nav)`. -/
def build_gold_returns (close : PriceTable) : List ℚ × List ℚ :=
  let iauCol := close.map (·.iau)
  let rIau := pctChange iauCol
  let rGcf := pctChange (close.map (·.gcf))
  let rGoldOpt :=
    match firstSomeIdx iauCol with
    | none => rIau
    | some k => rGcf.take k ++ rIau.drop k
  let rGold := rGoldOpt.map (·.getD 0)
  (rGold, rebase (cumprod (rGold.map (1 + ·))))

/-- `generate_signal(stock_nav, ma_period)`: the moving average is the
trailing rolling mean of the NAV; the signal is
`stock_nav.shift(1) > ma.shift(1)`.  Returns `(signal, ma)`. -/
def generate_signal (stockNav : List ℚ) (maPeriod : Nat) :
    List Bool × List (Option ℚ) :=
  let ma := rollingMean maPeriod stockNav
  let signal := List.zipWith optGt (shiftOne (stockNav.map some)) (shiftOne ma)
  (signal, ma)

/-- `calculate_drawdown_series(nav)`: `nav / nav.cummax() - 1`. -/
def calculate_drawdown_series (nav : List ℚ) : List ℚ :=
  List.zipWith (fun x h => x / h - 1) nav (cummax nav)

/-- `calculate_max_drawdown(nav)`: the minimum of the drawdown series
(`none` for an empty series, where pandas `.min()` is `NaN`). -/
def calculate_max_drawdown (nav : List ℚ) : Option ℚ :=
  match calculate_drawdown_series nav with
  | [] => none
  | x :: xs => some (xs.foldl min x)

/-- `calculate_recovery_days(nav)` over the series' `dates` index: find the
first position of the minimal drawdown (`idxmin`), then the first position
at or after it where the NAV is at least the running maximum at the
drawdown point; the answer is the day difference of the two index dates.
`none` when the NAV never recovers (and for the empty series, where pandas
would raise — the orchestrator only calls this on non-empty data). -/
def calculate_recovery_days (dates : List Int) (nav : List ℚ) : Option Int :=
  let high := cummax nav
  let dd := List.zipWith (fun x h => x / h - 1) nav high
  let k := idxOfMin dd
  let postMdd := nav.drop k
  let highAtMdd := high.getD k 0
  match firstIdxGeQ highAtMdd postMdd with
  | some j => some (dates.getD (k + j) 0 - dates.getD k 0)
  | none => none

/-- `calculate_rolling_sharpe(returns, window)`.  The code reports
`(mean*252) / (std*sqrt(252))` with `±inf` (zero-variance windows) mapped
to `NaN`.  Since `sqrt` is irrational, a defined entry here carries the
pair (annualized mean, annualized variance) whose quotient of the first by
the square root of the second is the reported value; `none` marks exactly
the undefined entries (unfilled window, or zero variance).  The claims
below only concern this series' index, never its defined values. -/
def calculate_rolling_sharpe (returns : List ℚ) (w : Nat) :
    List (Option (ℚ × ℚ)) :=
  (List.range returns.length).map fun i =>
    if i + 1 < w then none
    else
      let win := (returns.take (i + 1)).drop (i + 1 - w)
      let m := win.sum / w
      let v := ((win.map fun x => (x - m) ^ 2).sum) / ((w : ℚ) - 1)
      if v = 0 then none else some (m * 252, v * 252)

/-- Errors raised by the engine.  The code raises `ValueError` /
`RuntimeError` with distinct messages; the constructors name the distinct
message families of `download_data` and `run_backtest` (the spec's
`InvalidRangeError` / `DataUnavailableError` / `EmptyResultError`). -/
inductive Err where
  /-- `run_backtest`: "Start date must be before end date". -/
  | invalidRange
  /-- `download_data`: "End date is too close to today ... market data
  delays" (likely provider lag). -/
  | dataUnavailableLag
  /-- `download_data`: "End date is in the future". -/
  | dataUnavailableFuture
  /-- `download_data`: generic "Failed to download data after N
  attempts". -/
  | dataUnavailableGeneric
  /-- `run_backtest`: "No data available for the specified date range". -/
  | emptyResult
deriving DecidableEq, Repr

/-- Observable side effects of `download_data` (used to state that
validation failures happen before any fetch or cache activity). -/
inductive Eff where
  /-- A successful read of a warm cache entry. -/
  | cacheRead
  /-- One `yf.download` attempt. -/
  | fetchAttempt
  /-- Pickling the cleaned table into the cache. -/
  | cacheWrite
deriving DecidableEq, Repr

/-- The ambient world `download_data` interacts with: today's date, the
current clock (hours, for the 4-hour cache TTL), the cache entry for this
`(start, end)` key (modification time and pickled contents), and the
outcome of each successive `yf.download` attempt (`none` = exception or
empty frame). -/
structure FetchEnv where
  todayD : Int
  nowH : Int
  cacheMtimeH : Option Int
  cacheTable : PriceTable
  provider : List (Option PriceTable)
deriving Repr

/-- The retry loop of `download_data`: up to `n` attempts, consuming
successive provider outcomes; a success cleans the raw frame and caches
it. -/
def tryAttempts : Nat → List (Option PriceTable) → List Eff × Option PriceTable
  | 0, _ => ([], none)
  | Nat.succ n, ps =>
    match ps with
    | [] =>
      let r := tryAttempts n []
      (Eff.fetchAttempt :: r.1, r.2)
    | p :: rest =>
      match p with
      | some t => ([Eff.fetchAttempt, Eff.cacheWrite], some (cleanTable t))
      | none =>
        let r := tryAttempts n rest
        (Eff.fetchAttempt :: r.1, r.2)

/-- `CACHE_TTL_HOURS` (whole hours; the model measures cache age at hour
granularity). -/
def CACHE_TTL_HOURS : Int := 4

/-- `download_data(start, end, max_retries)`: serve a warm cache entry if
one exists, otherwise retry the download; on exhaustion pick the error
from `days_from_today = (today - end_date).days` — note the code tests
`days_from_today <= 1` *before* `days_from_today < 0`, so the
future-end-date branch is unreachable.  Returns the effect trace and the
outcome.  (`start` only keys the cache; dates are day ordinals.) -/
def download_data (start end_ : Int) (maxRetries : Nat) (env : FetchEnv) :
    List Eff × Except Err PriceTable :=
  let _ := start
  let cacheValid :=
    match env.cacheMtimeH with
    | some m => decide (env.nowH - m < CACHE_TTL_HOURS)
    | none => false
  if cacheValid then ([Eff.cacheRead], Except.ok env.cacheTable)
  else
    match tryAttempts maxRetries env.provider with
    | (effs, some t) => (effs, Except.ok t)
    | (effs, none) =>
      let daysFromToday := env.todayD - end_
      if daysFromToday ≤ 1 then (effs, Except.error Err.dataUnavailableLag)
      else if daysFromToday < 0 then (effs, Except.error Err.dataUnavailableFuture)
      else (effs, Except.error Err.dataUnavailableGeneric)

/-- The dates index of the close table. -/
def datesOf (close : PriceTable) : List Int := close.map (·.date)

/-- `r_stock` of `run_backtest`. -/
def rStockFull (close : PriceTable) (lev : ℚ) : List ℚ :=
  (build_stock_returns close lev).1

/-- `stock_nav` on the full fetched span. -/
def stockNavFull (close : PriceTable) (lev : ℚ) : List ℚ :=
  (build_stock_returns close lev).2.1

/-- `stock_nav_1x` on the full fetched span. -/
def stockNav1xFull (close : PriceTable) (lev : ℚ) : List ℚ :=
  (build_stock_returns close lev).2.2

/-- `r_gold` of `run_backtest`. -/
def rGoldFull (close : PriceTable) : List ℚ :=
  (build_gold_returns close).1

/-- `gold_nav` on the full fetched span. -/
def goldNavFull (close : PriceTable) : List ℚ :=
  (build_gold_returns close).2

/-- `signal` on the full fetched span. -/
def signalFull (close : PriceTable) (lev : ℚ) (w : Nat) : List Bool :=
  (generate_signal (stockNavFull close lev) w).1

/-- `stock_ma` on the full fetched span. -/
def stockMaFull (close : PriceTable) (lev : ℚ) (w : Nat) : List (Option ℚ) :=
  (generate_signal (stockNavFull close lev) w).2

/-- `r_strategy = np.where(signal, r_stock, r_gold)`. -/
def rStrategyFull (close : PriceTable) (lev : ℚ) (w : Nat) : List ℚ :=
  List.zipWith (fun s r => if s then r.1 else r.2)
    (signalFull close lev w) ((rStockFull close lev).zip (rGoldFull close))

/-- `nav_full = (1 + r_strategy).cumprod()` (not rebased here). -/
def navFull (close : PriceTable) (lev : ℚ) (w : Nat) : List ℚ :=
  cumprod ((rStrategyFull close lev w).map (1 + ·))

/-- `sp500_nav_full`. -/
def sp500NavFull (close : PriceTable) : List ℚ :=
  cumprod ((pctChange (close.map (·.gspc))).map fun o => 1 + o.getD 0)

/-- The trim point: index of the first date `≥ user_start`
(`close.index[close.index >= user_start][0]`, then label slicing
`.loc[actual_start:]` drops exactly the earlier positions on the strictly
increasing index). -/
def trimIdx (close : PriceTable) (us : Int) : Option Nat :=
  firstIdxGe us (datesOf close)

/-- The fields of `BacktestResult` the series- and recovery-level claims
concern.  Trimmed series share the `dates` index; the rolling-Sharpe
series keeps its own index `rollingSharpeDates`.  (The scalar metrics map,
annual-return maps and per-ticker availability strings are not modelled:
no claim mentions them.) -/
structure BacktestResult where
  dates : List Int
  nav : List ℚ
  stockNav : List ℚ
  stockNav1x : List ℚ
  goldNav : List ℚ
  stockMa : List (Option ℚ)
  sp500Nav : List ℚ
  signal : List Bool
  drawdownSeries : List ℚ
  rollingSharpeDates : List Int
  rollingSharpe : List (Option (ℚ × ℚ))
  recoveryDays : Option Int
deriving DecidableEq, Repr

/-- Lines 351–430 of `run_backtest`: build legs, signal, compose, trim to
the first date `≥ user_start`, rebase every NAV by its own first trimmed
value — the moving average by the stock NAV's scale — and assemble the
result.  The rolling Sharpe is computed from the *un-trimmed*
`r_strategy`; the recovery days from the trimmed, rebased `nav`. -/
def runPipeline (close : PriceTable) (us : Int) (w : Nat) (lev : ℚ) :
    Except Err BacktestResult :=
  match trimIdx close us with
  | none => Except.error Err.emptyResult
  | some k =>
    let scale := ((stockNavFull close lev).drop k).headI
    let navT := rebase ((navFull close lev w).drop k)
    Except.ok
      { dates := (datesOf close).drop k
        nav := navT
        stockNav := ((stockNavFull close lev).drop k).map (· / scale)
        stockNav1x := rebase ((stockNav1xFull close lev).drop k)
        goldNav := rebase ((goldNavFull close).drop k)
        stockMa := ((stockMaFull close lev w).drop k).map (Option.map (· / scale))
        sp500Nav := rebase ((sp500NavFull close).drop k)
        signal := (signalFull close lev w).drop k
        drawdownSeries := calculate_drawdown_series navT
        rollingSharpeDates := datesOf close
        rollingSharpe := calculate_rolling_sharpe (rStrategyFull close lev w) 252
        recoveryDays := calculate_recovery_days ((datesOf close).drop k) navT }

/-- `EARLIEST_DATA_DATE = 1927-01-01` as a day ordinal (days since
1900-01-01; the exact origin is immaterial). -/
def EARLIEST_DATA_DATE : Int := 9861

/-- `EARLIEST_RECOMMENDED_START = 1928-01-01` as a day ordinal. -/
def EARLIEST_RECOMMENDED_START : Int := 10226

/-- The requested start clamped forward to the earliest recommended
start. -/
def clampedStart (start : Int) : Int :=
  if start < EARLIEST_RECOMMENDED_START then EARLIEST_RECOMMENDED_START
  else start

/-- The fetch window start: the (clamped) user start extended backward by
`int(ma_period * 1.5) + 30` calendar days, clamped at the earliest data
date. -/
def fetchStart (start : Int) (maPeriod : Nat) : Int :=
  let e := clampedStart start - ((3 * maPeriod / 2 : Nat) + 30)
  if e < EARLIEST_DATA_DATE then EARLIEST_DATA_DATE else e

/-- `run_backtest(start, end, ma_period, leverage)` against an ambient
`FetchEnv`: validate the range (before any fetch), clamp an early start
forward, extend the fetch window backward for MA warm-up, download, and
run the pipeline.  Returns the fetch effect trace and the outcome. -/
def run_backtest (start end_ : Int) (maPeriod : Nat) (lev : ℚ)
    (env : FetchEnv) : List Eff × Except Err BacktestResult :=
  if end_ ≤ start then ([], Except.error Err.invalidRange)
  else
    match download_data (fetchStart start maPeriod) end_ 3 env with
    | (effs, Except.error e) => (effs, Except.error e)
    | (effs, Except.ok close) =>
      (effs, runPipeline close (clampedStart start) maPeriod lev)

/-! ### Concrete price tables and environments used as witnesses -/

/-- A constant-price row in the TQQQ era; only the gold ETF price `iauP`
varies, so the composed strategy NAV follows the gold leg. -/
def mkRowG (d : Int) (iauP : ℚ) : Row :=
  { date := d, year := 2010, gspc := some 10, ixic := some 10, ndx := some 10,
    qqq := some 10, tqqq := some 10, iau := some iauP, gcf := some 10 }

/-- Six trading days whose strategy NAV dips to 1/2 (recovering in 2 days)
before day 40006 and to 4/5 (recovering in 3 days) after it. -/
def tblA : PriceTable :=
  [mkRowG 40000 100, mkRowG 40001 50, mkRowG 40003 100,
   mkRowG 40006 100, mkRowG 40007 80, mkRowG 40010 100]

/-- A warm-cache environment serving `tblA`. -/
def envA : FetchEnv :=
  { todayD := 50000, nowH := 1, cacheMtimeH := some 0, cacheTable := tblA,
    provider := [] }

/-- A second warm-cache environment serving `tblA` with a different clock,
cache age, today and provider behaviour. -/
def envB : FetchEnv :=
  { todayD := 60000, nowH := 7, cacheMtimeH := some 4, cacheTable := tblA,
    provider := [none, none, none] }

/-- An environment with no cache and a provider that fails every
attempt. -/
def envFail : FetchEnv :=
  { todayD := 0, nowH := 10, cacheMtimeH := none, cacheTable := [],
    provider := [none, none, none] }

/-- A TQQQ-era table where both the leveraged ETF and the gold ETF have
their first valid price at index 2, while the unleveraged proxy (QQQ)
trades throughout. -/
def tblB : PriceTable :=
  [{ date := 40000, year := 2010, gspc := some 10, ixic := some 10,
     ndx := some 10, qqq := some 10, tqqq := none, iau := none,
     gcf := some 20 },
   { date := 40001, year := 2010, gspc := some 10, ixic := some 10,
     ndx := some 10, qqq := some 11, tqqq := none, iau := none,
     gcf := some 22 },
   { date := 40002, year := 2010, gspc := some 10, ixic := some 10,
     ndx := some 10, qqq := some 12, tqqq := some 30, iau := some 50,
     gcf := some 23 },
   { date := 40003, year := 2010, gspc := some 10, ixic := some 10,
     ndx := some 10, qqq := some 13, tqqq := some 33, iau := some 55,
     gcf := some 23 }]

/-! ### Length and indexing lemmas for the series operations -/

@[simp]
theorem pctChange_length (l : List (Option ℚ)) :
    (pctChange l).length = l.length := by
  simp [pctChange]

@[simp]
theorem cumprodAux_length (a : ℚ) (l : List ℚ) :
    (cumprodAux a l).length = l.length := by
  induction l generalizing a with
  | nil => rfl
  | cons x xs ih => simp [cumprodAux, ih]

@[simp]
theorem cumprod_length (l : List ℚ) : (cumprod l).length = l.length := by
  simp [cumprod]

@[simp]
theorem cummax_length (l : List ℚ) : (cummax l).length = l.length := by
  simp [cummax]

@[simp]
theorem rollingMean_length (w : Nat) (vs : List ℚ) :
    (rollingMean w vs).length = vs.length := by
  simp [rollingMean]

@[simp]
theorem shiftOne_length (xs : List (Option ℚ)) :
    (shiftOne xs).length = xs.length := by
  cases xs <;> simp [shiftOne]

@[simp]
theorem rebase_length (l : List ℚ) : (rebase l).length = l.length := by
  simp [rebase]

@[simp]
theorem stitchedOpt_length (close : PriceTable) :
    (stitchedOpt close).length = close.length := by
  simp [stitchedOpt]

@[simp]
theorem stitchedReturns_length (close : PriceTable) :
    (stitchedReturns close).length = close.length := by
  simp [stitchedReturns]

@[simp]
theorem leveragedReturns_length (close : PriceTable) (lev : ℚ) :
    (leveragedReturns close lev).length = close.length := by
  simp [leveragedReturns]

@[simp]
theorem datesOf_length (close : PriceTable) :
    (datesOf close).length = close.length := by
  simp [datesOf]

@[simp]
theorem rStockFull_length (close : PriceTable) (lev : ℚ) :
    (rStockFull close lev).length = close.length := by
  simp [rStockFull, build_stock_returns]

@[simp]
theorem stockNavFull_length (close : PriceTable) (lev : ℚ) :
    (stockNavFull close lev).length = close.length := by
  simp [stockNavFull, build_stock_returns]

@[simp]
theorem stockNav1xFull_length (close : PriceTable) (lev : ℚ) :
    (stockNav1xFull close lev).length = close.length := by
  simp [stockNav1xFull, build_stock_returns]

theorem firstSomeIdx_lt_length {l : List (Option ℚ)} {k : Nat}
    (h : firstSomeIdx l = some k) : k < l.length := by
  induction l generalizing k with
  | nil => simp [firstSomeIdx] at h
  | cons x xs ih =>
    by_cases hx : x.isSome
    · simp [firstSomeIdx, hx] at h
      simp
      omega
    · simp [firstSomeIdx, hx, Option.map_eq_some'] at h
      obtain ⟨a, ha, rfl⟩ := h
      have := ih ha
      simp
      omega

theorem firstSomeIdx_prev_none {l : List (Option ℚ)} {k : Nat}
    (h : firstSomeIdx l = some k) : ∀ j, j < k → l.getD j none = none := by
  induction l generalizing k with
  | nil => simp [firstSomeIdx] at h
  | cons x xs ih =>
    by_cases hx : x.isSome
    · simp [firstSomeIdx, hx] at h
      intro j hj
      omega
    · simp [firstSomeIdx, hx, Option.map_eq_some'] at h
      obtain ⟨a, ha, rfl⟩ := h
      intro j hj
      cases j with
      | zero =>
        simpa using Option.not_isSome_iff_eq_none.mp hx
      | succ j =>
        simpa using ih ha j (by omega)

@[simp]
theorem rGoldFull_length (close : PriceTable) :
    (rGoldFull close).length = close.length := by
  unfold rGoldFull build_gold_returns
  cases h : firstSomeIdx (close.map (·.iau)) with
  | none => simp [h]
  | some k =>
    have hk : k < (close.map (·.iau)).length := firstSomeIdx_lt_length h
    simp at hk
    simp [h]
    omega

@[simp]
theorem goldNavFull_length (close : PriceTable) :
    (goldNavFull close).length = close.length := by
  unfold goldNavFull build_gold_returns
  cases h : firstSomeIdx (close.map (·.iau)) with
  | none => simp [h]
  | some k =>
    have hk : k < (close.map (·.iau)).length := firstSomeIdx_lt_length h
    simp at hk
    simp [h]
    omega

@[simp]
theorem signalFull_length (close : PriceTable) (lev : ℚ) (w : Nat) :
    (signalFull close lev w).length = close.length := by
  simp [signalFull, generate_signal]

@[simp]
theorem stockMaFull_length (close : PriceTable) (lev : ℚ) (w : Nat) :
    (stockMaFull close lev w).length = close.length := by
  simp [stockMaFull, generate_signal]

@[simp]
theorem rStrategyFull_length (close : PriceTable) (lev : ℚ) (w : Nat) :
    (rStrategyFull close lev w).length = close.length := by
  simp [rStrategyFull]

@[simp]
theorem navFull_length (close : PriceTable) (lev : ℚ) (w : Nat) :
    (navFull close lev w).length = close.length := by
  simp [navFull]

@[simp]
theorem sp500NavFull_length (close : PriceTable) :
    (sp500NavFull close).length = close.length := by
  simp [sp500NavFull]

theorem pctChange_getElem? (l : List (Option ℚ)) (i : Nat) (hi : i < l.length) :
    (pctChange l)[i]? =
      some (if i = 0 then none else
        match l.getD (i - 1) none, l.getD i none with
        | some a, some b => some (b / a - 1)
        | _, _ => none) := by
  simp [pctChange, List.getElem?_map, List.getElem?_range hi]

theorem leveragedReturns_getD (close : PriceTable) (lev : ℚ) (i : Nat)
    (hi : i < close.length) :
    (leveragedReturns close lev).getD i 0 =
      if 2010 ≤ (close.getD i default).year then
        ((pctChange (close.map (·.tqqq))).getD i none).getD 0
      else (stitchedReturns close).getD i 0 * lev := by
  simp [leveragedReturns, List.getD_eq_getElem?_getD, List.getElem?_map,
    List.getElem?_range hi]

theorem shiftOne_getElem?_succ (xs : List (Option ℚ)) (i : Nat) :
    (shiftOne xs)[i + 1]? = if i + 1 < xs.length then xs[i]? else none := by
  cases xs with
  | nil => simp [shiftOne]
  | cons y t =>
    simp only [shiftOne, List.getElem?_cons_succ, List.getElem?_dropLast,
      List.length_cons]
    congr 1
    simp

theorem shiftOne_getElem?_zero (xs : List (Option ℚ)) (h : xs ≠ []) :
    (shiftOne xs)[0]? = some none := by
  obtain ⟨y, t, rfl⟩ := List.exists_cons_of_ne_nil h
  simp [shiftOne]

theorem rollingMean_getElem? (w : Nat) (vs : List ℚ) (i : Nat)
    (hi : i < vs.length) :
    (rollingMean w vs)[i]? =
      some (if i + 1 < w then none
        else some (((vs.take (i + 1)).drop (i + 1 - w)).sum / w)) := by
  simp [rollingMean, List.getElem?_map, List.getElem?_range hi]

theorem generate_signal_getElem?_zero (nav : List ℚ) (w : Nat)
    (h : nav ≠ []) :
    (generate_signal nav w).1[0]? = some false := by
  have h1 : (nav.map some) ≠ [] := by simpa using h
  have h2 : rollingMean w nav ≠ [] := by
    intro he
    have := congrArg List.length he
    simp at this
    exact h this
  unfold generate_signal
  rw [List.getElem?_zipWith, shiftOne_getElem?_zero _ h1, shiftOne_getElem?_zero _ h2]
  rfl

theorem generate_signal_getElem?_succ (nav : List ℚ) (w : Nat) (i : Nat)
    (ht : i + 1 < nav.length) :
    (generate_signal nav w).1[i + 1]? =
      some (optGt (some (nav.getD i 0))
        ((rollingMean w nav).getD i none)) := by
  unfold generate_signal
  rw [List.getElem?_zipWith, shiftOne_getElem?_succ, shiftOne_getElem?_succ]
  have hi : i < nav.length := by omega
  rw [if_pos (by simpa using ht), if_pos (by simpa using ht)]
  rw [List.getElem?_map, List.getElem?_eq_getElem hi,
    rollingMean_getElem? w nav i hi]
  simp [List.getD_eq_getElem?_getD, List.getElem?_eq_getElem hi,
    rollingMean_getElem? w nav i hi]

@[simp]
theorem calculate_drawdown_series_length (nav : List ℚ) :
    (calculate_drawdown_series nav).length = nav.length := by
  simp [calculate_drawdown_series]

@[simp]
theorem calculate_rolling_sharpe_length (rs : List ℚ) (w : Nat) :
    (calculate_rolling_sharpe rs w).length = rs.length := by
  simp [calculate_rolling_sharpe]

theorem firstIdxGe_lt_length {us : Int} {l : List Int} {k : Nat}
    (h : firstIdxGe us l = some k) : k < l.length := by
  induction l generalizing k with
  | nil => simp [firstIdxGe] at h
  | cons d ds ih =>
    by_cases hd : us ≤ d
    · simp [firstIdxGe, hd] at h
      simp
      omega
    · simp [firstIdxGe, hd, Option.map_eq_some'] at h
      obtain ⟨a, ha, rfl⟩ := h
      have := ih ha
      simp
      omega

theorem firstIdxGe_satisfied {us : Int} {l : List Int} {k : Nat}
    (h : firstIdxGe us l = some k) : us ≤ l.getD k 0 := by
  induction l generalizing k with
  | nil => simp [firstIdxGe] at h
  | cons d ds ih =>
    by_cases hd : us ≤ d
    · simp [firstIdxGe, hd] at h
      subst h
      simpa using hd
    · simp [firstIdxGe, hd, Option.map_eq_some'] at h
      obtain ⟨a, ha, rfl⟩ := h
      simpa using ih ha

/-- In a sorted date index, every date at or after position k is at least
the date at position k. -/
theorem sorted_drop_ge (l : List Int) (k : Nat)
    (hs : List.Sorted (· ≤ ·) l) (hk : k < l.length) :
    ∀ d ∈ l.drop k, l.getD k 0 ≤ d := by
  intro d hd
  have hsub : List.Sublist (l.drop k) l := List.drop_sublist k l
  have hsd : List.Sorted (· ≤ ·) (l.drop k) := List.Pairwise.sublist hsub hs
  rw [List.drop_eq_getElem_cons hk] at hd hsd
  have hgd : l.getD k 0 = l[k] := by
    rw [List.getD_eq_getElem?_getD, List.getElem?_eq_getElem hk]
    rfl
  rw [hgd]
  rcases List.mem_cons.mp hd with rfl | hd2
  · exact le_refl _
  · exact List.rel_of_sorted_cons hsd d hd2

theorem clampedStart_ge (start : Int) : start ≤ clampedStart start := by
  unfold clampedStart
  split <;> omega

/-- Field equations of a successful pipeline run. -/
theorem runPipeline_ok_fields (close : PriceTable) (us : Int) (w : Nat)
    (lev : ℚ) (k : Nat) (r : BacktestResult)
    (hk : trimIdx close us = some k)
    (hok : runPipeline close us w lev = Except.ok r) :
    r.dates = (datesOf close).drop k ∧
      r.nav = rebase ((navFull close lev w).drop k) ∧
      r.stockNav = rebase ((stockNavFull close lev).drop k) ∧
      r.stockNav1x = rebase ((stockNav1xFull close lev).drop k) ∧
      r.goldNav = rebase ((goldNavFull close).drop k) ∧
      r.stockMa = ((stockMaFull close lev w).drop k).map
        (Option.map (· / ((stockNavFull close lev).drop k).headI)) ∧
      r.sp500Nav = rebase ((sp500NavFull close).drop k) ∧
      r.signal = (signalFull close lev w).drop k ∧
      r.drawdownSeries =
        calculate_drawdown_series (rebase ((navFull close lev w).drop k)) ∧
      r.rollingSharpeDates = datesOf close ∧
      r.rollingSharpe = calculate_rolling_sharpe (rStrategyFull close lev w) 252 ∧
      r.recoveryDays = calculate_recovery_days ((datesOf close).drop k)
        (rebase ((navFull close lev w).drop k)) := by
  unfold runPipeline at hok
  rw [hk] at hok
  simp only [Except.ok.injEq] at hok
  subst hok
  exact ⟨rfl, rfl, rfl, rfl, rfl, rfl, rfl, rfl, rfl, rfl, rfl, rfl⟩

/-- A warm (non-expired) cache entry short-circuits `download_data`:
the only effect is the cache read and the cached table is returned. -/
theorem download_data_warm (start end_ : Int) (n : Nat) (env : FetchEnv)
    (m : Int) (hm : env.cacheMtimeH = some m)
    (hv : env.nowH - m < CACHE_TTL_HOURS) :
    download_data start end_ n env = ([Eff.cacheRead], Except.ok env.cacheTable) := by
  simp [download_data, hm, hv]

/-- A successful `run_backtest` against a warm cache is the pipeline run
on the cached table at the clamped start. -/
theorem run_backtest_warm (start end_ : Int) (w : Nat) (lev : ℚ)
    (env : FetchEnv) (m : Int) (hm : env.cacheMtimeH = some m)
    (hv : env.nowH - m < CACHE_TTL_HOURS) (hse : ¬ end_ ≤ start) :
    (run_backtest start end_ w lev env).2 =
      runPipeline env.cacheTable (clampedStart start) w lev := by
  unfold run_backtest
  rw [if_neg hse, download_data_warm _ _ _ _ _ hm hv]

/-! ### Minimum-fold lemmas -/

theorem foldl_min_le_init (xs : List ℚ) (a : ℚ) : xs.foldl min a ≤ a := by
  induction xs generalizing a with
  | nil => simp
  | cons x t ih => exact le_trans (ih (min a x)) (min_le_left a x)

theorem foldl_min_le_mem (xs : List ℚ) (a : ℚ) :
    ∀ x ∈ xs, xs.foldl min a ≤ x := by
  induction xs generalizing a with
  | nil => simp
  | cons y t ih =>
    intro x hx
    rcases List.mem_cons.mp hx with rfl | hx
    · exact le_trans (foldl_min_le_init t (min a x)) (min_le_right a x)
    · exact ih (min a y) x hx

theorem foldl_min_mem (xs : List ℚ) (a : ℚ) :
    xs.foldl min a = a ∨ xs.foldl min a ∈ xs := by
  induction xs generalizing a with
  | nil => simp
  | cons y t ih =>
    rcases ih (min a y) with hmin | hmem
    · rcases le_total a y with hay | hya
      · left
        simpa [min_eq_left hay] using hmin
      · right
        have hy : (y :: t).foldl min a = y := by
          simp only [List.foldl_cons]
          rw [hmin, min_eq_right hya]
        rw [hy]
        exact List.mem_cons_self y t
    · right
      exact List.mem_cons_of_mem y hmem

/-- The first drawdown entry is `nav₀/nav₀ - 1`. -/
theorem drawdown_series_cons (x : ℚ) (xs : List ℚ) :
    calculate_drawdown_series (x :: xs) =
      (x / x - 1) ::
        List.zipWith (fun a h => a / h - 1) xs
          ((List.range xs.length).map fun i => listMax ((x :: xs).take (i + 1 + 1))) := by
  simp [calculate_drawdown_series, cummax, List.range_succ_eq_map, listMax,
    Function.comp_def, Nat.succ_eq_add_one]

/-- C7: for every non-empty NAV series the scalar maximum drawdown
(minimum over the series of NAV divided by its running maximum, minus 1)
is ≤ 0, and it is exactly the minimum of the drawdown series returned for
charting: a member of that series bounding every entry from below. -/
theorem max_drawdown_nonpos_and_is_series_min (nav : List ℚ) (h : nav ≠ []) :
    ∃ m, calculate_max_drawdown nav = some m ∧ m ≤ 0 ∧
      m ∈ calculate_drawdown_series nav ∧
      ∀ y ∈ calculate_drawdown_series nav, m ≤ y := by
  obtain ⟨x, xs, rfl⟩ := List.exists_cons_of_ne_nil h
  obtain ⟨t, ht⟩ : ∃ t, calculate_drawdown_series (x :: xs) = (x / x - 1) :: t :=
    ⟨_, drawdown_series_cons x xs⟩
  have hd0 : x / x - 1 ≤ 0 := by
    rcases eq_or_ne x 0 with rfl | hx
    · norm_num
    · simp [div_self hx]
  refine ⟨t.foldl min (x / x - 1), ?_, ?_, ?_, ?_⟩
  · simp [calculate_max_drawdown, ht]
  · exact le_trans (foldl_min_le_init t _) hd0
  · rw [ht]
    rcases foldl_min_mem t (x / x - 1) with he | hm
    · rw [he]
      exact List.mem_cons_self _ _
    · exact List.mem_cons_of_mem _ hm
  · intro y hy
    rw [ht] at hy
    rcases List.mem_cons.mp hy with rfl | hy
    · exact foldl_min_le_init t _
    · exact foldl_min_le_mem t _ y hy

/-- Witness for C7 at the concrete NAV series `[1, 1/2, 3/4]`. -/
theorem max_drawdown_nonpos_and_is_series_min_witness :
    ([(1 : ℚ), 1 / 2, 3 / 4] ≠ []) ∧
      ∃ m, calculate_max_drawdown [(1 : ℚ), 1 / 2, 3 / 4] = some m ∧ m ≤ 0 ∧
        m ∈ calculate_drawdown_series [(1 : ℚ), 1 / 2, 3 / 4] ∧
        ∀ y ∈ calculate_drawdown_series [(1 : ℚ), 1 / 2, 3 / 4], m ≤ y :=
  ⟨by decide, max_drawdown_nonpos_and_is_series_min [(1 : ℚ), 1 / 2, 3 / 4]
    (by decide)⟩

/-- C8: when the requested start is on or after the requested end, the
orchestrator fails with the parameter error and the effect trace is
empty — no fetch attempt, cache read or cache write has occurred. -/
theorem invalid_range_fails_before_any_fetch (start end_ : Int) (w : Nat)
    (lev : ℚ) (env : FetchEnv) (h : end_ ≤ start) :
    run_backtest start end_ w lev env = ([], Except.error Err.invalidRange) := by
  simp [run_backtest, h]

/-- Witness for C8: `start = 45627` (2024-12-01), `end = 43829`
(2020-01-01) fails fast with the parameter error and no effects. -/
theorem invalid_range_fails_before_any_fetch_witness :
    ((43829 : Int) ≤ 45627) ∧
      run_backtest 45627 43829 200 3 envA =
        ([], Except.error Err.invalidRange) :=
  ⟨by decide, invalid_range_fails_before_any_fetch 45627 43829 200 3 envA
    (by decide)⟩

/-- C5 (code bug): with every retry exhausted and the requested end date
strictly in the future (here one day after "today"), `download_data`
raises the provider-lag `DataUnavailableError`, not the future-date
`InvalidRangeError` the claim (and the code's own dead
`days_from_today < 0` branch) calls for: `days_from_today <= 1` is tested
first and already matches every negative value. -/
theorem future_end_date_gets_lag_error :
    envFail.todayD - 1 < 0 ∧
      (download_data 0 1 3 envFail).2 = Except.error Err.dataUnavailableLag :=
  ⟨by decide, by rfl⟩

/-- C9: two orchestration runs with identical parameters whose fetches are
both served by a warm (non-expired) cache holding the same price table
return identical results — everything after the fetch is a deterministic
function of the cached table and the parameters, whatever else (clock,
cache age, today's date, provider outcomes) differs between the two
environments. -/
theorem warm_cache_runs_identical (start end_ : Int) (w : Nat) (lev : ℚ)
    (e1 e2 : FetchEnv) (m1 m2 : Int)
    (h1 : e1.cacheMtimeH = some m1) (h1v : e1.nowH - m1 < CACHE_TTL_HOURS)
    (h2 : e2.cacheMtimeH = some m2) (h2v : e2.nowH - m2 < CACHE_TTL_HOURS)
    (ht : e1.cacheTable = e2.cacheTable) :
    (run_backtest start end_ w lev e1).2 = (run_backtest start end_ w lev e2).2 := by
  unfold run_backtest
  by_cases hse : end_ ≤ start
  · simp [hse]
  · rw [if_neg hse, if_neg hse, download_data_warm _ _ _ _ _ h1 h1v,
      download_data_warm _ _ _ _ _ h2 h2v, ht]

/-- C1: for every leveraged-stock NAV series and moving-average window,
the generated signal at index t (t ≥ 1) equals `NAV[t-1] > MA[t-1]` where
MA is the trailing rolling mean of the NAV over the window (a missing
operand compares false); signal[0] is false (both shifted operands are
missing); and signal[t] depends only on NAV values at indices < t: any
NAV series agreeing on the first t values — however its values dated ≥ t
differ — produces the same signal[t]. -/
theorem signal_prior_day_no_lookahead (nav nav2 : List ℚ) (w t : Nat)
    (ht : t < nav.length) (ht2 : t < nav2.length)
    (hpre : nav.take t = nav2.take t) :
    (1 ≤ t →
        (generate_signal nav w).1[t]? =
          some (optGt (some (nav.getD (t - 1) 0))
            ((rollingMean w nav).getD (t - 1) none))) ∧
      (t = 0 → (generate_signal nav w).1[t]? = some false) ∧
      (generate_signal nav w).1[t]? = (generate_signal nav2 w).1[t]? := by
  refine ⟨?_, ?_, ?_⟩
  · intro h1
    obtain ⟨i, rfl⟩ : ∃ i, t = i + 1 := ⟨t - 1, by omega⟩
    rw [generate_signal_getElem?_succ nav w i ht]
    simp
  · rintro rfl
    exact generate_signal_getElem?_zero nav w (by rintro rfl; simp at ht)
  · rcases Nat.eq_zero_or_pos t with rfl | hpos
    · rw [generate_signal_getElem?_zero nav w (by rintro rfl; simp at ht),
        generate_signal_getElem?_zero nav2 w (by rintro rfl; simp at ht2)]
    · obtain ⟨i, rfl⟩ : ∃ i, t = i + 1 := ⟨t - 1, by omega⟩
      rw [generate_signal_getElem?_succ nav w i ht,
        generate_signal_getElem?_succ nav2 w i ht2]
      have hv : nav[i]? = nav2[i]? := by
        have hc := congrArg (fun l => l[i]?) hpre
        simpa [List.getElem?_take, Nat.lt_succ_self] using hc
      have hnavD : nav.getD i 0 = nav2.getD i 0 := by
        rw [List.getD_eq_getElem?_getD, List.getD_eq_getElem?_getD, hv]
      have hrm : (rollingMean w nav).getD i none =
          (rollingMean w nav2).getD i none := by
        rw [List.getD_eq_getElem?_getD, List.getD_eq_getElem?_getD,
          rollingMean_getElem? w nav i (by omega),
          rollingMean_getElem? w nav2 i (by omega)]
        simp only [Option.getD_some]
        rw [hpre]
      rw [hnavD, hrm]

/-- Witness for C1 at `nav = [1, 2, 3]`, `nav2 = [1, 2, 100]`, window 2,
index 2: mutating the value dated 2 does not change signal[2]. -/
theorem signal_prior_day_no_lookahead_witness :
    ((2 : Nat) < [(1 : ℚ), 2, 3].length) ∧
      ((2 : Nat) < [(1 : ℚ), 2, 100].length) ∧
      [(1 : ℚ), 2, 3].take 2 = [(1 : ℚ), 2, 100].take 2 ∧
      (generate_signal [(1 : ℚ), 2, 3] 2).1[2]? =
        (generate_signal [(1 : ℚ), 2, 100] 2).1[2]? :=
  ⟨by decide, by decide, by rfl,
    (signal_prior_day_no_lookahead [(1 : ℚ), 2, 3] [(1 : ℚ), 2, 100] 2 2
      (by decide) (by decide) (by rfl)).2.2⟩

/-! ### Positive rescaling does not change the recovery computation -/

theorem foldl_max_map_div (c : ℚ) (hc : 0 ≤ c) (l : List ℚ) (a : ℚ) :
    (l.map (· / c)).foldl max (a / c) = l.foldl max a / c := by
  induction l generalizing a with
  | nil => rfl
  | cons x xs ih =>
    simp only [List.map_cons, List.foldl_cons]
    rw [max_div_div_right hc, ih]

theorem listMax_map_div (c : ℚ) (hc : 0 ≤ c) (l : List ℚ) :
    listMax (l.map (· / c)) = listMax l / c := by
  cases l with
  | nil => simp [listMax]
  | cons x xs =>
    simp only [List.map_cons, listMax]
    exact foldl_max_map_div c hc xs x

theorem cummax_map_div (c : ℚ) (hc : 0 ≤ c) (l : List ℚ) :
    cummax (l.map (· / c)) = (cummax l).map (· / c) := by
  simp only [cummax, List.length_map, List.map_map]
  apply List.map_congr_left
  intro i hi
  simp only [Function.comp_apply]
  rw [← List.map_take, listMax_map_div c hc]

theorem div_div_div_same (x h c : ℚ) (hc : c ≠ 0) :
    x / c / (h / c) = x / h := by
  rcases eq_or_ne h 0 with rfl | hh
  · simp
  · field_simp

theorem drawdown_zip_map_div (c : ℚ) (hc : 0 < c) (nav : List ℚ) :
    List.zipWith (fun x h => x / h - 1) (nav.map (· / c))
        ((cummax nav).map (· / c)) =
      List.zipWith (fun x h => x / h - 1) nav (cummax nav) := by
  rw [List.zipWith_map]
  have hfe : (fun (a b : ℚ) => a / c / (b / c) - 1) = fun a b => a / b - 1 := by
    funext a b
    rw [div_div_div_same a b c hc.ne']
  rw [hfe]

theorem firstIdxGeQ_map_div (c : ℚ) (hc : 0 < c) (b : ℚ) (l : List ℚ) :
    firstIdxGeQ (b / c) (l.map (· / c)) = firstIdxGeQ b l := by
  induction l with
  | nil => rfl
  | cons x xs ih =>
    simp only [List.map_cons, firstIdxGeQ, div_le_div_iff_of_pos_right hc, ih]

theorem getD_map_div (c : ℚ) (l : List ℚ) (i : Nat) :
    (l.map (· / c)).getD i 0 = l.getD i 0 / c := by
  have h0 : ((0 : ℚ) / c) = 0 := zero_div c
  calc (l.map (· / c)).getD i 0
      = (l.map (· / c)).getD i (0 / c) := by rw [h0]
    _ = l.getD i 0 / c := List.getD_map l 0 (· / c)

/-- Dividing a NAV series by a positive constant changes neither the
position of the maximum drawdown nor the recovery duration. -/
theorem calculate_recovery_days_map_div (dates : List Int) (c : ℚ)
    (hc : 0 < c) (nav : List ℚ) :
    calculate_recovery_days dates (nav.map (· / c)) =
      calculate_recovery_days dates nav := by
  simp only [calculate_recovery_days]
  rw [cummax_map_div c hc.le, drawdown_zip_map_div c hc, ← List.map_drop,
    getD_map_div, firstIdxGeQ_map_div c hc]

/-- Rebasing a NAV series with positive first value changes neither the
position of the maximum drawdown nor the recovery duration. -/
theorem calculate_recovery_days_rebase (dates : List Int) (nav : List ℚ)
    (hpos : 0 < nav.headI) :
    calculate_recovery_days dates (rebase nav) =
      calculate_recovery_days dates nav :=
  calculate_recovery_days_map_div dates nav.headI hpos nav

/-- C3 amended: for a successful warm-cache orchestration run on a sorted
table, the trimmed index `r.dates` — shared by the strategy, stock, gold
and benchmark NAVs, the MA, the signal and the drawdown series, whose
lengths all equal its length — contains no date before the user's original
requested start; but the rolling-Sharpe series is NOT trimmed: it keeps
the full fetched index (and its length), which in general starts before
the requested start. -/
theorem series_trimmed_except_rolling_sharpe (start end_ : Int) (w : Nat)
    (lev : ℚ) (env : FetchEnv) (m : Int) (k : Nat)
    (hm : env.cacheMtimeH = some m) (hv : env.nowH - m < CACHE_TTL_HOURS)
    (hse : ¬ end_ ≤ start)
    (hs : List.Sorted (· ≤ ·) (datesOf env.cacheTable))
    (hk : trimIdx env.cacheTable (clampedStart start) = some k) :
    (∀ d ∈ (datesOf env.cacheTable).drop k, start ≤ d) ∧
      (Except.toOption (run_backtest start end_ w lev env).2).map
          (fun r => (r.dates, r.rollingSharpeDates)) =
        some ((datesOf env.cacheTable).drop k, datesOf env.cacheTable) ∧
      (Except.toOption (run_backtest start end_ w lev env).2).map
          (fun r => (r.nav.length, r.stockNav.length, r.stockNav1x.length,
            r.goldNav.length, r.stockMa.length, r.sp500Nav.length,
            r.signal.length, r.drawdownSeries.length, r.rollingSharpe.length)) =
        some (((datesOf env.cacheTable).drop k).length,
          ((datesOf env.cacheTable).drop k).length,
          ((datesOf env.cacheTable).drop k).length,
          ((datesOf env.cacheTable).drop k).length,
          ((datesOf env.cacheTable).drop k).length,
          ((datesOf env.cacheTable).drop k).length,
          ((datesOf env.cacheTable).drop k).length,
          ((datesOf env.cacheTable).drop k).length,
          (datesOf env.cacheTable).length) := by
  have hklt : k < (datesOf env.cacheTable).length := firstIdxGe_lt_length hk
  refine ⟨?_, ?_⟩
  · intro d hd
    have h1 : clampedStart start ≤ (datesOf env.cacheTable).getD k 0 :=
      firstIdxGe_satisfied hk
    have h2 : (datesOf env.cacheTable).getD k 0 ≤ d :=
      sorted_drop_ge _ k hs hklt d hd
    have h3 : start ≤ clampedStart start := clampedStart_ge start
    omega
  rw [run_backtest_warm start end_ w lev env m hm hv hse]
  unfold runPipeline
  rw [hk]
  have hkc : k < env.cacheTable.length := by simpa using hklt
  constructor
  · rfl
  · simp [Except.toOption, List.length_drop]

/-- A non-empty series with non-zero first value rebases to first value
exactly 1. -/
theorem rebase_head?_one (l : List ℚ) (hne : l ≠ []) (h : l.headI ≠ 0) :
    (rebase l).head? = some 1 := by
  obtain ⟨x, xs, rfl⟩ := List.exists_cons_of_ne_nil hne
  have hx : x ≠ 0 := by simpa using h
  simp [rebase, List.headI, div_self hx]

/-- C2 amended: the recovery-days value in the result is the recovery
computation — days from the first position of minimal drawdown to the
first subsequent date whose NAV reaches the running maximum at that
point, `none` if never — applied to the nav TRIMMED to the requested
window (the rebasing is immaterial: it divides by the positive first
trimmed value), not to the un-trimmed full-span nav. -/
theorem recovery_days_from_trimmed_nav (start end_ : Int) (w : Nat)
    (lev : ℚ) (env : FetchEnv) (m : Int) (k : Nat)
    (hm : env.cacheMtimeH = some m) (hv : env.nowH - m < CACHE_TTL_HOURS)
    (hse : ¬ end_ ≤ start)
    (hk : trimIdx env.cacheTable (clampedStart start) = some k)
    (hpos : 0 < ((navFull env.cacheTable lev w).drop k).headI) :
    (Except.toOption (run_backtest start end_ w lev env).2).map
        (·.recoveryDays) =
      some (calculate_recovery_days ((datesOf env.cacheTable).drop k)
        ((navFull env.cacheTable lev w).drop k)) := by
  rw [run_backtest_warm start end_ w lev env m hm hv hse]
  unfold runPipeline
  rw [hk]
  simp only [Except.toOption, Option.map_some']
  rw [calculate_recovery_days_rebase _ _ hpos]

/-- C2 counterexample: in the warm-cache run on `tblA` (requested start
40006) the returned recovery days are 3 — computed from the trimmed nav,
whose maximum drawdown is the −20% dip at date 40007 recovering at
40010 — whereas the un-trimmed full-span nav has its maximum drawdown
(−50%) at date 40001, recovering at 40003, i.e. 2 days: the result is not
computed from the un-trimmed maximum-drawdown point. -/
theorem recovery_days_untrimmed_cex :
    (Except.toOption (run_backtest 40006 40020 200 3 envA).2).map
        (·.recoveryDays) = some (some 3) ∧
      calculate_recovery_days (datesOf tblA) (navFull tblA 3 200) = some 2 ∧
      ((some (3 : Int) : Option Int) ≠ some 2) := by
  refine ⟨by with_unfolding_all rfl, by with_unfolding_all rfl, by decide⟩

/-- Witness for C2 (amended) at the warm-cache run on `tblA`. -/
theorem recovery_days_from_trimmed_nav_witness :
    (Except.toOption (run_backtest 40006 40020 200 3 envA).2).map
        (·.recoveryDays) =
      some (calculate_recovery_days ((datesOf envA.cacheTable).drop 3)
        ((navFull envA.cacheTable 3 200).drop 3)) :=
  recovery_days_from_trimmed_nav 40006 40020 200 3 envA 0 3 rfl (by decide)
    (by decide) (by decide) (by with_unfolding_all decide)

/-- C3 counterexample: in the warm-cache run on `tblA` with requested
start 40006, the trimmed index starts at 40006, but the rolling-Sharpe
series keeps the full fetched index, whose first element is dated 40000,
strictly before the trim point — so not every returned series starts at
the first available date ≥ the original requested start. -/
theorem rolling_sharpe_untrimmed_cex :
    (Except.toOption (run_backtest 40006 40020 200 3 envA).2).map
        (fun r => (r.rollingSharpeDates.getD 0 0, r.dates.getD 0 0)) =
      some (40000, 40006) ∧ ((40000 : Int) < 40006) := by
  constructor
  · decide
  · decide

/-- Witness for C3 (amended) at the warm-cache run on `tblA`. -/
theorem series_trimmed_except_rolling_sharpe_witness :
    (∀ d ∈ (datesOf envA.cacheTable).drop 3, (40006 : Int) ≤ d) ∧
      (Except.toOption (run_backtest 40006 40020 200 3 envA).2).map
          (fun r => (r.dates, r.rollingSharpeDates)) =
        some ((datesOf envA.cacheTable).drop 3, datesOf envA.cacheTable) ∧
      (Except.toOption (run_backtest 40006 40020 200 3 envA).2).map
          (fun r => (r.nav.length, r.stockNav.length, r.stockNav1x.length,
            r.goldNav.length, r.stockMa.length, r.sp500Nav.length,
            r.signal.length, r.drawdownSeries.length, r.rollingSharpe.length)) =
        some (((datesOf envA.cacheTable).drop 3).length,
          ((datesOf envA.cacheTable).drop 3).length,
          ((datesOf envA.cacheTable).drop 3).length,
          ((datesOf envA.cacheTable).drop 3).length,
          ((datesOf envA.cacheTable).drop 3).length,
          ((datesOf envA.cacheTable).drop 3).length,
          ((datesOf envA.cacheTable).drop 3).length,
          ((datesOf envA.cacheTable).drop 3).length,
          (datesOf envA.cacheTable).length) :=
  series_trimmed_except_rolling_sharpe 40006 40020 200 3 envA 0 3 rfl
    (by decide) (by decide) (by decide) (by decide)

/-- C6: for a successful warm-cache orchestration run in which the five
NAV series have non-zero first trimmed values, each returned NAV series
(strategy, leveraged stock, unleveraged stock, gold, benchmark) starts at
exactly 1, and the returned moving-average series is the trimmed MA
divided by the leveraged stock NAV's first trimmed value — the same scale
factor as the stock NAV it accompanies, not its own first value. -/
theorem navs_rebase_to_one_and_ma_shares_stock_scale (start end_ : Int)
    (w : Nat) (lev : ℚ) (env : FetchEnv) (m : Int) (k : Nat)
    (hm : env.cacheMtimeH = some m) (hv : env.nowH - m < CACHE_TTL_HOURS)
    (hse : ¬ end_ ≤ start)
    (hk : trimIdx env.cacheTable (clampedStart start) = some k)
    (h1 : ((navFull env.cacheTable lev w).drop k).headI ≠ 0)
    (h2 : ((stockNavFull env.cacheTable lev).drop k).headI ≠ 0)
    (h3 : ((stockNav1xFull env.cacheTable lev).drop k).headI ≠ 0)
    (h4 : ((goldNavFull env.cacheTable).drop k).headI ≠ 0)
    (h5 : ((sp500NavFull env.cacheTable).drop k).headI ≠ 0) :
    (Except.toOption (run_backtest start end_ w lev env).2).map
        (fun r => (r.nav.head?, r.stockNav.head?, r.stockNav1x.head?,
          r.goldNav.head?, r.sp500Nav.head?)) =
      some (some 1, some 1, some 1, some 1, some 1) ∧
      (Except.toOption (run_backtest start end_ w lev env).2).map
          (·.stockMa) =
        some (((stockMaFull env.cacheTable lev w).drop k).map
          (Option.map (· / ((stockNavFull env.cacheTable lev).drop k).headI))) := by
  have hklt : k < (datesOf env.cacheTable).length := firstIdxGe_lt_length hk
  have hkc : k < env.cacheTable.length := by simpa using hklt
  have e1 : (rebase ((navFull env.cacheTable lev w).drop k)).head? = some 1 :=
    rebase_head?_one _ (by
      apply List.ne_nil_of_length_pos
      simp [List.length_drop]
      omega) h1
  have e2 : (rebase ((stockNavFull env.cacheTable lev).drop k)).head? = some 1 :=
    rebase_head?_one _ (by
      apply List.ne_nil_of_length_pos
      simp [List.length_drop]
      omega) h2
  have e2m : (((stockNavFull env.cacheTable lev).drop k).map
      (fun x => x / ((stockNavFull env.cacheTable lev).drop k).headI)).head? =
      some 1 := e2
  have e3 : (rebase ((stockNav1xFull env.cacheTable lev).drop k)).head? = some 1 :=
    rebase_head?_one _ (by
      apply List.ne_nil_of_length_pos
      simp [List.length_drop]
      omega) h3
  have e4 : (rebase ((goldNavFull env.cacheTable).drop k)).head? = some 1 :=
    rebase_head?_one _ (by
      apply List.ne_nil_of_length_pos
      simp [List.length_drop]
      omega) h4
  have e5 : (rebase ((sp500NavFull env.cacheTable).drop k)).head? = some 1 :=
    rebase_head?_one _ (by
      apply List.ne_nil_of_length_pos
      simp [List.length_drop]
      omega) h5
  rw [run_backtest_warm start end_ w lev env m hm hv hse]
  unfold runPipeline
  rw [hk]
  constructor
  · simp only [Except.toOption, Option.map_some', Option.some_inj]
    rw [e1, e2m, e3, e4, e5]
  · rfl

/-- Witness for C6 at the warm-cache run on `tblA`. -/
theorem navs_rebase_to_one_and_ma_shares_stock_scale_witness :
    (Except.toOption (run_backtest 40006 40020 200 3 envA).2).map
        (fun r => (r.nav.head?, r.stockNav.head?, r.stockNav1x.head?,
          r.goldNav.head?, r.sp500Nav.head?)) =
      some (some 1, some 1, some 1, some 1, some 1) ∧
      (Except.toOption (run_backtest 40006 40020 200 3 envA).2).map
          (·.stockMa) =
        some (((stockMaFull envA.cacheTable 3 200).drop 3).map
          (Option.map (· / ((stockNavFull envA.cacheTable 3).drop 3).headI))) :=
  navs_rebase_to_one_and_ma_shares_stock_scale 40006 40020 200 3 envA 0 3
    rfl (by decide) (by decide) (by decide)
    (by with_unfolding_all decide) (by with_unfolding_all decide)
    (by with_unfolding_all decide) (by with_unfolding_all decide)
    (by with_unfolding_all decide)

/-- C4 counterexample: in `tblB` the real leveraged instrument's first
valid price (its inception) is at index 2, yet on index 1 — a date before
that inception — the leveraged stock return is 0 (the TQQQ percent change
is still `NaN` there and `fillna(0)` fills it), not the unleveraged
stitched return times the leverage multiplier, which is 3/10: the code
cuts over at the fixed calendar date 2010-01-01, not at the instrument's
inception. -/
theorem leveraged_times_multiplier_before_inception_cex :
    firstSomeIdx (tblB.map (·.tqqq)) = some 2 ∧
      (stitchedReturns tblB).getD 1 0 * 3 = 3 / 10 ∧
      (build_stock_returns tblB 3).1.getD 1 0 = 0 ∧
      ((0 : ℚ) ≠ 3 / 10) := by
  refine ⟨by decide, ?_, ?_, by norm_num⟩
  · norm_num [stitchedReturns, stitchedOpt, eraPick, pctChange, tblB,
      show List.range 4 = [0, 1, 2, 3] from rfl, List.getD]
  · norm_num [build_stock_returns, leveragedReturns, stitchedReturns,
      stitchedOpt, eraPick, pctChange, tblB,
      show List.range 4 = [0, 1, 2, 3] from rfl, List.getD]

/-- C4 amended: the leveraged stock return equals the unleveraged stitched
return times the leverage multiplier exactly on rows dated before
2010-01-01 (calendar year < 2010); on rows from 2010-01-01 onward it
equals the leveraged instrument's own realized percent change with missing
values — including every date up to and at the instrument's inception —
replaced by 0. -/
theorem leveraged_cutover_at_2010 (close : PriceTable) (lev : ℚ) (i : Nat)
    (hi : i < close.length) :
    ((close.getD i default).year < 2010 →
        (build_stock_returns close lev).1.getD i 0 =
          (stitchedReturns close).getD i 0 * lev) ∧
      (2010 ≤ (close.getD i default).year →
        (build_stock_returns close lev).1.getD i 0 =
          ((pctChange (close.map (·.tqqq))).getD i none).getD 0) := by
  have hb : (build_stock_returns close lev).1 = leveragedReturns close lev := rfl
  rw [hb, leveragedReturns_getD close lev i hi]
  constructor
  · intro hy
    rw [if_neg (by omega)]
  · intro hy
    rw [if_pos hy]

/-- Witness for C4 (amended) at `tblB`, index 2 (a row at or after the
2010-01-01 cutover). -/
theorem leveraged_cutover_at_2010_witness :
    (2 < tblB.length) ∧
      (((tblB.getD 2 default).year < 2010 →
          (build_stock_returns tblB 3).1.getD 2 0 =
            (stitchedReturns tblB).getD 2 0 * 3) ∧
        (2010 ≤ (tblB.getD 2 default).year →
          (build_stock_returns tblB 3).1.getD 2 0 =
            ((pctChange (tblB.map (·.tqqq))).getD 2 none).getD 0)) :=
  ⟨by decide, leveraged_cutover_at_2010 tblB 3 2 (by decide)⟩

/-- C10: on the gold ETF's first valid date the assigned gold return is
exactly 0 — the ETF's percent change at its first observation is `NaN`
(there is no prior ETF price) and `fillna(0)` replaces it, so the splice
day contributes no return computed from comparing futures and ETF price
levels. -/
theorem gold_return_zero_at_etf_inception (close : PriceTable) (k : Nat)
    (hk : firstSomeIdx (close.map (·.iau)) = some k) :
    (build_gold_returns close).1.getD k 0 = 0 := by
  have hlen : k < (close.map (·.iau)).length := firstSomeIdx_lt_length hk
  have hlen' : k < close.length := by simpa using hlen
  have hiau : (pctChange (close.map (·.iau)))[k]? = some none := by
    rw [pctChange_getElem? _ _ (by simpa using hlen')]
    rcases Nat.eq_zero_or_pos k with rfl | hpos
    · simp
    · have hprev : (close.map (·.iau)).getD (k - 1) none = none :=
        firstSomeIdx_prev_none hk (k - 1) (by omega)
      rw [if_neg (by omega : ¬ k = 0), hprev]
  unfold build_gold_returns
  simp only [hk]
  rw [List.getD_eq_getElem?_getD, List.getElem?_map, List.getElem?_append]
  have htk : (List.take k (pctChange (close.map (·.gcf)))).length = k := by
    simp
    omega
  rw [htk, if_neg (lt_irrefl k), Nat.sub_self, List.getElem?_drop, Nat.add_zero,
    hiau]
  rfl

/-- Witness for C10: in `tblB` the gold ETF's first valid index is 2 and
the gold return assigned there is 0 (not the −50% jump that comparing the
futures price 23 with the ETF price 50 across the splice would give). -/
theorem gold_return_zero_at_etf_inception_witness :
    firstSomeIdx (tblB.map (·.iau)) = some 2 ∧
      (build_gold_returns tblB).1.getD 2 0 = 0 :=
  ⟨by decide, gold_return_zero_at_etf_inception tblB 2 (by decide)⟩

/-- Witness for C9: the two warm-cache environments `envA` and `envB`
(different clocks, cache ages, todays and providers, same cached table)
yield the same result. -/
theorem warm_cache_runs_identical_witness :
    (run_backtest 40006 40020 200 3 envA).2 =
      (run_backtest 40006 40020 200 3 envB).2 :=
  warm_cache_runs_identical 40006 40020 200 3 envA envB 0 4 rfl (by decide)
    rfl (by decide) rfl

end BacktestEngine
